import Mathlib

/-
Verification of the FunkMF online matrix-factorization recommender
(creme/reco/funk_mf.py), shallowly embedded over ℚ.

Latent vectors are lists of rationals; the two latent stores are
association lists keyed by Nat (Python dict keys are opaque hashables;
Nat suffices for the properties below).  The stochastic initializer,
the optim module (SGD, losses) and utils.math.clamp are not under src/
and are modelled from the spec where noted.
-/

abbrev Vec := List ℚ

abbrev Store := List (Nat × Vec)

/-- Dot product of two numeric vectors (np.dot on equal-length vectors). -/
def dot (v w : Vec) : ℚ := (List.zipWith (fun a b => a * b) v w).sum

/-- Scalar multiple of a vector (numpy scalar * array). -/
def smul (c : ℚ) (v : Vec) : Vec := v.map (fun a => c * a)

/-- Pointwise sum of two vectors (numpy array + array). -/
def vadd (v w : Vec) : Vec := List.zipWith (fun a b => a + b) v w

/-- Pointwise difference of two vectors (numpy array - array). -/
def vsub (v w : Vec) : Vec := List.zipWith (fun a b => a - b) v w

/-- Sum of squared entries: the squared Euclidean norm of a vector. -/
def normSq (v : Vec) : ℚ := (v.map (fun a => a * a)).sum

/-- Modelled from the spec: `utils.math.clamp` is not under src/; the spec
describes a hard clamp, `clamp(raw, -c, c) = max(min(raw, c), -c)`. -/
def clamp (x minimum maximum : ℚ) : ℚ := max (min x maximum) minimum

/-- First-match lookup in an association-list store (Python dict access). -/
def lookupStore : Store → Nat → Option Vec
  | [], _ => none
  | (k2, v) :: rest, k => if k2 = k then some v else lookupStore rest k

/-- Replace the value stored at a key, leaving the store unchanged when the
key is absent (Python dict item assignment for a present key). -/
def updateStore : Store → Nat → Vec → Store
  | [], _, _ => []
  | (k2, w) :: rest, k, v =>
      if k2 = k then (k2, v) :: rest else (k2, w) :: updateStore rest k v

/-- Modelled from the spec (§4.3): the optim module is not under src/.
An optimizer is an update rule `step old_vector gradient = new_vector`
together with `ident`, which models Python object identity (two separately
constructed instances have distinct idents; assigning one instance to two
fields copies the same ident). -/
structure Optimizer where
  ident : Nat
  step : Vec → Vec → Vec

/-- Modelled from the spec (§4.3): `update_after_pred(w, g)` returns the store
with exactly the keys of the sparse gradient mapping `g` replaced by the
optimizer's step on their current vector; all other keys are unchanged. -/
def Optimizer.update_after_pred (o : Optimizer) (w : Store) (g : List (Nat × Vec)) : Store :=
  g.foldl (fun acc kg => updateStore acc kg.1 (o.step ((lookupStore acc kg.1).getD []) kg.2)) w

/-- Modelled from the spec (§6): the default SGD optimizer's fixed default
learning rate (the library's documented default, 0.01). -/
def sgdDefaultLR : ℚ := 1 / 100

/-- Modelled from the spec (§4.3, §6): plain SGD, `w ← w - lr * g`.
`ident` is the object identity of this instance. -/
def SGD (ident : Nat) (lr : ℚ) : Optimizer :=
  { ident := ident, step := fun w g => vsub w (smul lr g) }

/-- Modelled from the spec (§4.4, §6): the default squared-error loss's
gradient ∂loss/∂prediction.  Losses are fallible (`Option`) so that a loss
whose gradient raises can be expressed; the default never fails. -/
def squaredLossGradient (y p : ℚ) : Option ℚ := some (2 * (p - y))

/-- State of a FunkMF model: configuration plus the two latent stores and the
position `rng_k` of the single stochastic initializer shared by both stores
(the source builds one `functools.partial(self.initializer, shape=n_factors)`
and hands the same object to both defaultdicts).  `sample seed k j` is the
j-th component of the k-th vector the seeded initializer would ever draw;
a seeded RNG advancing by `n_factors` draws per call is tracked by the call
index `k`. -/
structure FunkMF where
  n_factors : Nat
  u_optimizer : Optimizer
  i_optimizer : Optimizer
  lossGradient : ℚ → ℚ → Option ℚ
  l2 : ℚ
  clip_gradient : ℚ
  random_state : Nat
  sample : Nat → Nat → Nat → ℚ
  u_latents : Store
  i_latents : Store
  rng_k : Nat

/-- The vector produced by the shared initializer at draw position `idx`:
`n_factors` sampled components. -/
def FunkMF.freshVec (m : FunkMF) (idx : Nat) : Vec :=
  (List.range m.n_factors).map (m.sample m.random_state idx)

/-- defaultdict access: return the stored vector, or draw a fresh one from the
shared initializer (advancing its position), insert it and return it. -/
def FunkMF.getOrInit (m : FunkMF) (s : Store) (k : Nat) (idx : Nat) : Vec × Store × Nat :=
  match lookupStore s k with
  | some v => (v, s, idx)
  | none => (m.freshVec idx, s ++ [(k, m.freshVec idx)], idx + 1)

/-- `_predict_one`: `np.dot(self.u_latents[user], self.i_latents[item])`.
The user store is accessed first, then the item store; both accesses may
lazily initialize. -/
def FunkMF.predictOne (m : FunkMF) (user item : Nat) : ℚ × FunkMF :=
  let r1 := m.getOrInit m.u_latents user m.rng_k
  let r2 := m.getOrInit m.i_latents item r1.2.2
  (dot r1.1 r2.1, { m with u_latents := r1.2.1, i_latents := r2.2.1, rng_k := r2.2.2 })

/-- The pair of per-vector gradients `_fit_one` computes from the clipped loss
gradient `g` and the pre-update vectors:
`(g * i_vec + l2 * u_vec, g * u_vec + l2 * i_vec)`. -/
def FunkMF.latentGrads (m : FunkMF) (g : ℚ) (uv iv : Vec) : Vec × Vec :=
  (vadd (smul g iv) (smul m.l2 uv), vadd (smul g uv) (smul m.l2 iv))

/-- `_fit_one`: predict (lazily initializing), take the loss gradient, clamp
it to `[-clip_gradient, clip_gradient]`, build both latent gradients from the
same pre-update vectors, then let each side's optimizer update its store.
A loss whose gradient raises is modelled by `none`: the exception propagates
after the prediction step, so the returned state is the post-prediction state
and the flag is `false`. -/
def FunkMF.fitOne (m : FunkMF) (user item : Nat) (y : ℚ) : FunkMF × Bool :=
  let p := m.predictOne user item
  match (m.lossGradient y p.1).map
      (fun gr => clamp gr (-(m.clip_gradient)) m.clip_gradient) with
  | none => (p.2, false)
  | some g =>
    let uv := (lookupStore p.2.u_latents user).getD []
    let iv := (lookupStore p.2.i_latents item).getD []
    let grads := m.latentGrads g uv iv
    ({ p.2 with
        u_latents := m.u_optimizer.update_after_pred p.2.u_latents [(user, grads.1)],
        i_latents := m.i_optimizer.update_after_pred p.2.i_latents [(item, grads.2)] },
     true)

/-- `FunkMF.__init__`.  `optimizer = none` models the default: two separate
`SGD()` constructions, hence two instances with distinct idents; a supplied
optimizer is assigned to both fields, as in the source.  `loss = none` models
the default squared loss.  Both stores start empty and share one initializer
position. -/
def mkFunkMF (sample : Nat → Nat → Nat → ℚ) (n_factors : Nat)
    (optimizer : Option Optimizer) (loss : Option (ℚ → ℚ → Option ℚ))
    (l2 : ℚ) (clip_gradient : ℚ) (random_state : Nat) : FunkMF :=
  { n_factors := n_factors
    u_optimizer := match optimizer with | none => SGD 0 sgdDefaultLR | some o => o
    i_optimizer := match optimizer with | none => SGD 1 sgdDefaultLR | some o => o
    lossGradient := match loss with | none => squaredLossGradient | some f => f
    l2 := l2
    clip_gradient := clip_gradient
    random_state := random_state
    sample := sample
    u_latents := []
    i_latents := []
    rng_k := 0 }

/-- One observable operation on a model: a prediction or a fit. -/
inductive Op where
  | pred : Nat → Nat → Op
  | fit : Nat → Nat → ℚ → Op

/-- The user key an operation references. -/
def opUser : Op → Nat
  | .pred u _ => u
  | .fit u _ _ => u

/-- The item key an operation references. -/
def opItem : Op → Nat
  | .pred _ i => i
  | .fit _ i _ => i

/-- Run one operation, keeping the resulting state. -/
def runOp (m : FunkMF) : Op → FunkMF
  | .pred u i => (m.predictOne u i).2
  | .fit u i y => (m.fitOne u i y).1

/-- Run a sequence of operations left to right. -/
def runOps (m : FunkMF) (ops : List Op) : FunkMF := ops.foldl runOp m

/-- Append a key to a key list unless already present. -/
def addKey (ks : List Nat) (k : Nat) : List Nat := if k ∈ ks then ks else ks ++ [k]

/-- The distinct keys of a reference sequence, in first-occurrence order. -/
def firstSeen (l : List Nat) : List Nat := l.foldl addKey []

/-- One fit whose target is the model's current prediction for the pair. -/
def selfFit (m : FunkMF) (u i : Nat) : FunkMF := (m.fitOne u i (m.predictOne u i).1).1

/-- Iterate `selfFit` on the same pair. -/
def selfFitIter (m : FunkMF) (u i : Nat) : Nat → FunkMF
  | 0 => m
  | k + 1 => selfFit (selfFitIter m u i k) u i

/-- A constant initializer stream: every component of every draw is 1. -/
def sampleOnes : Nat → Nat → Nat → ℚ := fun _ _ _ => 1

/-- An initializer stream whose k-th draw has every component equal to k,
so distinct draws are distinguishable. -/
def sampleIdx : Nat → Nat → Nat → ℚ := fun _ idx _ => (idx : ℚ)

/-- A loss already saturated at the clip bound: its gradient is the constant
`+c` when the reference raw gradient `g0` is positive and `-c` otherwise. -/
def saturatedLoss (c g0 : ℚ) : ℚ → ℚ → Option ℚ := fun _ _ => some (if 0 < g0 then c else -c)

/-- An optimizer step preserves the dimensionality `n` of the vectors it
touches (true of SGD and required of any optimizer by the §4.3 contract). -/
def StepLen (n : Nat) (o : Optimizer) : Prop :=
  ∀ w g : Vec, w.length = n → g.length = n → (o.step w g).length = n

/-- The model invariant: the configured dimensionality is `n`, both optimizer
steps preserve it, and every stored vector has exactly `n` entries. -/
def MFInv (n : Nat) (m : FunkMF) : Prop :=
  m.n_factors = n
  ∧ StepLen n m.u_optimizer ∧ StepLen n m.i_optimizer
  ∧ (∀ kv ∈ m.u_latents, (kv.2 : Vec).length = n)
  ∧ (∀ kv ∈ m.i_latents, (kv.2 : Vec).length = n)

/- ------------------------------------------------------------------ -/
/- Theorems.                                                           -/
/- ------------------------------------------------------------------ -/

theorem lookupStore_append (s : Store) (k j : Nat) (v : Vec) :
    lookupStore (s ++ [(k, v)]) j =
      match lookupStore s j with
      | some w => some w
      | none => if k = j then some v else none := by
  induction s with
  | nil => simp [lookupStore]
  | cons hd tl ih =>
      obtain ⟨k2, w⟩ := hd
      by_cases h : k2 = j <;> simp [lookupStore, h, ih]

theorem lookupStore_none_iff (s : Store) (k : Nat) :
    lookupStore s k = none ↔ k ∉ s.map Prod.fst := by
  induction s with
  | nil => simp [lookupStore]
  | cons hd tl ih =>
      obtain ⟨k2, w⟩ := hd
      simp only [lookupStore, List.map_cons, List.mem_cons]
      by_cases h : k2 = k
      · simp [h]
      · rw [if_neg h, ih]
        have hne : ¬ k = k2 := fun e => h e.symm
        tauto

theorem lookupStore_mem (s : Store) (k : Nat) (v : Vec) (h : lookupStore s k = some v) :
    (k, v) ∈ s := by
  induction s with
  | nil => simp [lookupStore] at h
  | cons hd tl ih =>
      obtain ⟨k2, w⟩ := hd
      by_cases hk : k2 = k
      · subst hk
        simp [lookupStore] at h
        simp [h]
      · simp [lookupStore, hk] at h
        exact List.mem_cons_of_mem _ (ih h)

theorem lookupStore_update_self (s : Store) (k : Nat) (v : Vec)
    (h : lookupStore s k ≠ none) : lookupStore (updateStore s k v) k = some v := by
  induction s with
  | nil => simp [lookupStore] at h
  | cons hd tl ih =>
      obtain ⟨k2, w⟩ := hd
      by_cases hk : k2 = k
      · simp [updateStore, lookupStore, hk]
      · simp [updateStore, lookupStore, hk] at h ⊢
        exact ih h

theorem lookupStore_update_ne (s : Store) (k j : Nat) (v : Vec) (h : j ≠ k) :
    lookupStore (updateStore s k v) j = lookupStore s j := by
  induction s with
  | nil => simp [updateStore]
  | cons hd tl ih =>
      obtain ⟨k2, w⟩ := hd
      by_cases hk : k2 = k
      · subst hk
        have hne : ¬ k2 = j := fun h2 => h (h2.symm)
        simp [updateStore, lookupStore, hne]
      · simp [updateStore, lookupStore, hk, ih]

theorem map_fst_updateStore (s : Store) (k : Nat) (v : Vec) :
    (updateStore s k v).map Prod.fst = s.map Prod.fst := by
  induction s with
  | nil => rfl
  | cons hd tl ih =>
      obtain ⟨k2, w⟩ := hd
      by_cases hk : k2 = k <;> simp [updateStore, hk, ih]

theorem lookupStore_append_self (s : Store) (k : Nat) (v : Vec)
    (h : lookupStore s k = none) : lookupStore (s ++ [(k, v)]) k = some v := by
  induction s with
  | nil => simp [lookupStore]
  | cons hd tl ih =>
      obtain ⟨k2, w⟩ := hd
      by_cases hk : k2 = k
      · simp [lookupStore, hk] at h
      · simp [lookupStore, hk] at h ⊢
        exact ih h

theorem lookupStore_append_ne (s : Store) (k j : Nat) (v : Vec) (h : j ≠ k) :
    lookupStore (s ++ [(k, v)]) j = lookupStore s j := by
  induction s with
  | nil => simp [lookupStore, Ne.symm h]
  | cons hd tl ih =>
      obtain ⟨k2, w⟩ := hd
      by_cases hk : k2 = j <;> simp [lookupStore, hk, ih]

theorem mem_updateStore (s : Store) (k : Nat) (v : Vec) (kv : Nat × Vec)
    (h : kv ∈ updateStore s k v) : kv ∈ s ∨ kv.2 = v := by
  induction s with
  | nil => simp [updateStore] at h
  | cons hd tl ih =>
      obtain ⟨k2, w⟩ := hd
      by_cases hk : k2 = k
      · simp [updateStore, hk] at h
        rcases h with h | h
        · right; rw [h]
        · left; exact List.mem_cons_of_mem _ h
      · simp [updateStore, hk] at h
        rcases h with h | h
        · left; simp [h]
        · rcases ih h with h2 | h2
          · left; exact List.mem_cons_of_mem _ h2
          · right; exact h2

theorem predictOne_value (m : FunkMF) (u i : Nat) :
    (m.predictOne u i).1
      = dot ((lookupStore m.u_latents u).getD (m.freshVec m.rng_k))
            ((lookupStore m.i_latents i).getD
              (m.freshVec (if (lookupStore m.u_latents u).isSome then m.rng_k
                           else m.rng_k + 1))) := by
  cases hu : lookupStore m.u_latents u <;> cases hi : lookupStore m.i_latents i <;>
    simp [FunkMF.predictOne, FunkMF.getOrInit, hu, hi]

theorem predictOne_lookup_u (m : FunkMF) (u i k : Nat) :
    lookupStore (m.predictOne u i).2.u_latents k
      = if k = u then some ((lookupStore m.u_latents u).getD (m.freshVec m.rng_k))
        else lookupStore m.u_latents k := by
  by_cases hk : k = u
  · subst hk
    cases hu : lookupStore m.u_latents k <;> cases hi : lookupStore m.i_latents i <;>
      simp [FunkMF.predictOne, FunkMF.getOrInit, hu, hi, lookupStore_append_self]
  · cases hu : lookupStore m.u_latents u <;> cases hi : lookupStore m.i_latents i <;>
      simp [FunkMF.predictOne, FunkMF.getOrInit, hu, hi, lookupStore_append_ne _ _ _ _ hk, hk]

theorem predictOne_lookup_i (m : FunkMF) (u i k : Nat) :
    lookupStore (m.predictOne u i).2.i_latents k
      = if k = i then some ((lookupStore m.i_latents i).getD
            (m.freshVec (if (lookupStore m.u_latents u).isSome then m.rng_k
                         else m.rng_k + 1)))
        else lookupStore m.i_latents k := by
  by_cases hk : k = i
  · subst hk
    cases hu : lookupStore m.u_latents u <;> cases hi : lookupStore m.i_latents k <;>
      simp [FunkMF.predictOne, FunkMF.getOrInit, hu, hi, lookupStore_append_self]
  · cases hu : lookupStore m.u_latents u <;> cases hi : lookupStore m.i_latents i <;>
      simp [FunkMF.predictOne, FunkMF.getOrInit, hu, hi, lookupStore_append_ne _ _ _ _ hk, hk]

theorem predictOne_cfg (m : FunkMF) (u i : Nat) :
    (m.predictOne u i).2.n_factors = m.n_factors
    ∧ (m.predictOne u i).2.u_optimizer = m.u_optimizer
    ∧ (m.predictOne u i).2.i_optimizer = m.i_optimizer
    ∧ (m.predictOne u i).2.lossGradient = m.lossGradient
    ∧ (m.predictOne u i).2.l2 = m.l2
    ∧ (m.predictOne u i).2.clip_gradient = m.clip_gradient
    ∧ (m.predictOne u i).2.random_state = m.random_state
    ∧ (m.predictOne u i).2.sample = m.sample :=
  ⟨rfl, rfl, rfl, rfl, rfl, rfl, rfl, rfl⟩

theorem fitOne_cfg (m : FunkMF) (u i : Nat) (y : ℚ) :
    (m.fitOne u i y).1.n_factors = m.n_factors
    ∧ (m.fitOne u i y).1.u_optimizer = m.u_optimizer
    ∧ (m.fitOne u i y).1.i_optimizer = m.i_optimizer
    ∧ (m.fitOne u i y).1.lossGradient = m.lossGradient
    ∧ (m.fitOne u i y).1.l2 = m.l2
    ∧ (m.fitOne u i y).1.clip_gradient = m.clip_gradient
    ∧ (m.fitOne u i y).1.random_state = m.random_state
    ∧ (m.fitOne u i y).1.sample = m.sample := by
  simp only [FunkMF.fitOne]
  cases hg : (m.lossGradient y (m.predictOne u i).1).map
      (fun gr => clamp gr (-(m.clip_gradient)) m.clip_gradient) <;>
    exact ⟨rfl, rfl, rfl, rfl, rfl, rfl, rfl, rfl⟩

theorem predictOne_keys (m : FunkMF) (u i : Nat) :
    (m.predictOne u i).2.u_latents.map Prod.fst = addKey (m.u_latents.map Prod.fst) u
    ∧ (m.predictOne u i).2.i_latents.map Prod.fst = addKey (m.i_latents.map Prod.fst) i := by
  have hmu := lookupStore_none_iff m.u_latents u
  have hmi := lookupStore_none_iff m.i_latents i
  constructor
  · by_cases hu : lookupStore m.u_latents u = none
    · have hnot := hmu.mp hu
      cases hi : lookupStore m.i_latents i <;>
        simp [FunkMF.predictOne, FunkMF.getOrInit, hu, hi, addKey, hnot]
    · have hmem : u ∈ m.u_latents.map Prod.fst := by
        by_contra hc
        exact hu (hmu.mpr hc)
      cases hs : lookupStore m.u_latents u with
      | none => exact absurd hs hu
      | some v =>
          cases hi : lookupStore m.i_latents i <;>
            simp [FunkMF.predictOne, FunkMF.getOrInit, hs, hi, addKey, hmem]
  · by_cases hi : lookupStore m.i_latents i = none
    · have hnot := hmi.mp hi
      cases hu : lookupStore m.u_latents u <;>
        simp [FunkMF.predictOne, FunkMF.getOrInit, hu, hi, addKey, hnot]
    · have hmem : i ∈ m.i_latents.map Prod.fst := by
        by_contra hc
        exact hi (hmi.mpr hc)
      cases hs : lookupStore m.i_latents i with
      | none => exact absurd hs hi
      | some v =>
          cases hu : lookupStore m.u_latents u <;>
            simp [FunkMF.predictOne, FunkMF.getOrInit, hu, hs, addKey, hmem]

theorem fitOne_keys (m : FunkMF) (u i : Nat) (y : ℚ) :
    (m.fitOne u i y).1.u_latents.map Prod.fst = addKey (m.u_latents.map Prod.fst) u
    ∧ (m.fitOne u i y).1.i_latents.map Prod.fst = addKey (m.i_latents.map Prod.fst) i := by
  have hp := predictOne_keys m u i
  simp only [FunkMF.fitOne]
  cases hg : (m.lossGradient y (m.predictOne u i).1).map
      (fun gr => clamp gr (-(m.clip_gradient)) m.clip_gradient) with
  | none => simpa using hp
  | some g =>
      simp only [Optimizer.update_after_pred, List.foldl, map_fst_updateStore]
      exact hp

theorem runOp_keys (m : FunkMF) (op : Op) :
    (runOp m op).u_latents.map Prod.fst = addKey (m.u_latents.map Prod.fst) (opUser op)
    ∧ (runOp m op).i_latents.map Prod.fst = addKey (m.i_latents.map Prod.fst) (opItem op) := by
  cases op with
  | pred u i => exact predictOne_keys m u i
  | fit u i y => exact fitOne_keys m u i y

theorem runOps_keys (ops : List Op) : ∀ m : FunkMF,
    (runOps m ops).u_latents.map Prod.fst
      = (ops.map opUser).foldl addKey (m.u_latents.map Prod.fst)
    ∧ (runOps m ops).i_latents.map Prod.fst
      = (ops.map opItem).foldl addKey (m.i_latents.map Prod.fst) := by
  induction ops with
  | nil => intro m; exact ⟨rfl, rfl⟩
  | cons op rest ih =>
      intro m
      have h1 := runOp_keys m op
      have h2 := ih (runOp m op)
      constructor
      · show (runOps (runOp m op) rest).u_latents.map Prod.fst
            = ((op :: rest).map opUser).foldl addKey (m.u_latents.map Prod.fst)
        rw [h2.1, h1.1]
        rfl
      · show (runOps (runOp m op) rest).i_latents.map Prod.fst
            = ((op :: rest).map opItem).foldl addKey (m.i_latents.map Prod.fst)
        rw [h2.2, h1.2]
        rfl

theorem mem_foldl_addKey (l : List Nat) : ∀ (ks : List Nat) (j : Nat),
    j ∈ l.foldl addKey ks ↔ j ∈ ks ∨ j ∈ l := by
  induction l with
  | nil => intro ks j; simp
  | cons k rest ih =>
      intro ks j
      simp only [List.foldl_cons, ih, List.mem_cons]
      by_cases hk : k ∈ ks
      · rw [addKey, if_pos hk]
        constructor
        · rintro (h | h)
          · exact Or.inl h
          · exact Or.inr (Or.inr h)
        · rintro (h | rfl | h)
          · exact Or.inl h
          · exact Or.inl hk
          · exact Or.inr h
      · rw [addKey, if_neg hk]
        simp only [List.mem_append, List.mem_singleton]
        tauto

theorem nodup_foldl_addKey (l : List Nat) : ∀ ks : List Nat,
    ks.Nodup → (l.foldl addKey ks).Nodup := by
  induction l with
  | nil => intro ks h; exact h
  | cons k rest ih =>
      intro ks h
      refine ih (addKey ks k) ?_
      by_cases hk : k ∈ ks
      · simpa [addKey, hk] using h
      · rw [addKey, if_neg hk]
        simp [List.nodup_append, h, hk]

theorem firstSeen_nodup (l : List Nat) : (firstSeen l).Nodup :=
  nodup_foldl_addKey l [] List.nodup_nil

theorem mem_firstSeen (l : List Nat) (j : Nat) : j ∈ firstSeen l ↔ j ∈ l := by
  rw [firstSeen, mem_foldl_addKey]
  simp

theorem firstSeen_length (l : List Nat) : (firstSeen l).length = l.toFinset.card := by
  have h2 : (firstSeen l).toFinset = l.toFinset := by
    ext j
    simp [List.mem_toFinset, mem_firstSeen]
  rw [← h2, List.toFinset_card_of_nodup (firstSeen_nodup l)]

theorem freshVec_length (m : FunkMF) (idx : Nat) :
    (m.freshVec idx).length = m.n_factors := by
  simp [FunkMF.freshVec]

theorem stepLen_SGD (n : Nat) (ident : Nat) (lr : ℚ) : StepLen n (SGD ident lr) := by
  intro w g hw hg
  simp [SGD, vsub, smul, hw, hg]

theorem getD_lookup_length (n : Nat) (s : Store) (k : Nat) (d : Vec)
    (hs : ∀ kv ∈ s, (kv.2 : Vec).length = n) (hd : d.length = n) :
    ((lookupStore s k).getD d).length = n := by
  cases h : lookupStore s k with
  | none => simpa using hd
  | some v => simpa using hs (k, v) (lookupStore_mem s k v h)

theorem latentGrads_length (m : FunkMF) (g : ℚ) (uv iv : Vec) (n : Nat)
    (hu : uv.length = n) (hi : iv.length = n) :
    (m.latentGrads g uv iv).1.length = n ∧ (m.latentGrads g uv iv).2.length = n := by
  simp [FunkMF.latentGrads, vadd, smul, hu, hi]

theorem mem_append_singleton (s : Store) (k : Nat) (v : Vec) (kv : Nat × Vec)
    (h : kv ∈ s ++ [(k, v)]) : kv ∈ s ∨ kv = (k, v) := by
  rcases List.mem_append.mp h with h | h
  · exact Or.inl h
  · right
    simpa using h

theorem predictOne_lookup_self_u (m : FunkMF) (u i : Nat) :
    lookupStore (m.predictOne u i).2.u_latents u
      = some ((lookupStore m.u_latents u).getD (m.freshVec m.rng_k)) := by
  simpa using predictOne_lookup_u m u i u

theorem predictOne_lookup_self_i (m : FunkMF) (u i : Nat) :
    lookupStore (m.predictOne u i).2.i_latents i
      = some ((lookupStore m.i_latents i).getD
          (m.freshVec (if (lookupStore m.u_latents u).isSome then m.rng_k
                       else m.rng_k + 1))) := by
  simpa using predictOne_lookup_i m u i i

theorem inv_predictOne (n : Nat) (m : FunkMF) (hm : MFInv n m) (u i : Nat) :
    MFInv n (m.predictOne u i).2 := by
  obtain ⟨h1, h2, h3, h4, h5⟩ := hm
  refine ⟨h1, h2, h3, ?_, ?_⟩
  · intro kv hkv
    by_cases hu : lookupStore m.u_latents u = none
    · simp only [FunkMF.predictOne, FunkMF.getOrInit, hu] at hkv
      rcases mem_append_singleton _ _ _ _ hkv with h | h
      · exact h4 kv h
      · rw [h]
        simpa [freshVec_length] using h1
    · cases hs : lookupStore m.u_latents u with
      | none => exact absurd hs hu
      | some v =>
          simp only [FunkMF.predictOne, FunkMF.getOrInit, hs] at hkv
          exact h4 kv hkv
  · intro kv hkv
    by_cases hi : lookupStore m.i_latents i = none
    · simp only [FunkMF.predictOne, FunkMF.getOrInit, hi] at hkv
      rcases mem_append_singleton _ _ _ _ hkv with h | h
      · exact h5 kv h
      · rw [h]
        simpa [freshVec_length] using h1
    · cases hs : lookupStore m.i_latents i with
      | none => exact absurd hs hi
      | some v =>
          simp only [FunkMF.predictOne, FunkMF.getOrInit, hs] at hkv
          exact h5 kv hkv

theorem inv_fitOne (n : Nat) (m : FunkMF) (hm : MFInv n m) (u i : Nat) (y : ℚ) :
    MFInv n (m.fitOne u i y).1 := by
  have hp := inv_predictOne n m hm u i
  obtain ⟨h1, h2, h3, h4, h5⟩ := hp
  simp only [FunkMF.fitOne]
  cases hg : (m.lossGradient y (m.predictOne u i).1).map
      (fun gr => clamp gr (-(m.clip_gradient)) m.clip_gradient) with
  | none => exact ⟨h1, h2, h3, h4, h5⟩
  | some g =>
      have hlu := predictOne_lookup_self_u m u i
      have hli := predictOne_lookup_self_i m u i
      have hA : ((lookupStore (m.predictOne u i).2.u_latents u).getD ([] : Vec)).length = n := by
        rw [hlu]
        exact h4 _ (lookupStore_mem _ _ _ hlu)
      have hB : ((lookupStore (m.predictOne u i).2.i_latents i).getD ([] : Vec)).length = n := by
        rw [hli]
        exact h5 _ (lookupStore_mem _ _ _ hli)
      refine ⟨h1, h2, h3, ?_, ?_⟩
      · intro kv hkv
        simp only [Optimizer.update_after_pred, List.foldl_cons, List.foldl_nil] at hkv
        rcases mem_updateStore _ _ _ _ hkv with h | h
        · exact h4 kv h
        · rw [h]
          exact h2 _ _ hA ((latentGrads_length m g _ _ n hA hB).1)
      · intro kv hkv
        simp only [Optimizer.update_after_pred, List.foldl_cons, List.foldl_nil] at hkv
        rcases mem_updateStore _ _ _ _ hkv with h | h
        · exact h5 kv h
        · rw [h]
          exact h3 _ _ hB ((latentGrads_length m g _ _ n hA hB).2)

theorem inv_runOp (n : Nat) (m : FunkMF) (hm : MFInv n m) (op : Op) :
    MFInv n (runOp m op) := by
  cases op with
  | pred u i => exact inv_predictOne n m hm u i
  | fit u i y => exact inv_fitOne n m hm u i y

theorem inv_runOps (n : Nat) (ops : List Op) : ∀ m : FunkMF,
    MFInv n m → MFInv n (runOps m ops) := by
  induction ops with
  | nil => intro m h; exact h
  | cons op rest ih =>
      intro m h
      exact ih (runOp m op) (inv_runOp n m h op)

theorem inv_mkFunkMF (sample : Nat → Nat → Nat → ℚ) (n : Nat)
    (loss : Option (ℚ → ℚ → Option ℚ)) (l2 c : ℚ) (seed : Nat) :
    MFInv n (mkFunkMF sample n none loss l2 c seed) :=
  ⟨rfl, stepLen_SGD n 0 sgdDefaultLR, stepLen_SGD n 1 sgdDefaultLR,
    by simp [mkFunkMF], by simp [mkFunkMF]⟩

/-- C1, counterexample: constructing with an explicitly supplied optimizer
assigns the very same instance to both the user side and the item side
(`self.u_optimizer = optimizer`, `self.i_optimizer = optimizer`), so the
claim that the two sides are distinct instances for every constructed model
fails: here both sides carry the ident of the single supplied instance. -/
theorem funkMF_optimizer_shared_cex :
    (mkFunkMF sampleOnes 10 (some (SGD 7 (1/10))) none 0 (10^12) 0).u_optimizer.ident
      = (mkFunkMF sampleOnes 10 (some (SGD 7 (1/10))) none 0 (10^12) 0).i_optimizer.ident :=
  rfl

/-- C1 (amended): when `optimizer` is unset, the two sides default to two
independently constructed SGD instances, which are distinct; when an
optimizer is supplied, that single instance is assigned to both sides, so
its internal state is shared between user-side and item-side updates. -/
theorem funkMF_optimizer_instances (sample : Nat → Nat → Nat → ℚ) (n : Nat)
    (loss : Option (ℚ → ℚ → Option ℚ)) (l2 c : ℚ) (seed : Nat) :
    (mkFunkMF sample n none loss l2 c seed).u_optimizer.ident
      ≠ (mkFunkMF sample n none loss l2 c seed).i_optimizer.ident
    ∧ ∀ o : Optimizer,
        (mkFunkMF sample n (some o) loss l2 c seed).u_optimizer = o
        ∧ (mkFunkMF sample n (some o) loss l2 c seed).i_optimizer = o := by
  refine ⟨?_, fun o => ⟨rfl, rfl⟩⟩
  intro h
  simp [mkFunkMF, SGD] at h

/-- C2 (amended): a `fit_one` whose loss-gradient computation fails leaves
the model exactly in the state produced by the embedded prediction step: no
vector is modified and no optimizer update is applied, but the lazy
initialization performed by that prediction may already have inserted fresh
vectors for previously unseen keys. -/
theorem funkMF_fit_error_state (m : FunkMF) (u i : Nat) (y : ℚ)
    (h : (m.fitOne u i y).2 = false) :
    (m.fitOne u i y).1 = (m.predictOne u i).2 := by
  simp only [FunkMF.fitOne] at h ⊢
  cases hg : (m.lossGradient y (m.predictOne u i).1).map
      (fun gr => clamp gr (-(m.clip_gradient)) m.clip_gradient) with
  | none => rfl
  | some g =>
      rw [hg] at h
      simp at h

/-- Witness for the amended C2 at a concrete failing loss. -/
theorem funkMF_fit_error_state_witness :
    ((mkFunkMF sampleOnes 2 none (some (fun _ _ => none)) 0 (10^12) 0).fitOne 0 1 5).2 = false
    ∧ ((mkFunkMF sampleOnes 2 none (some (fun _ _ => none)) 0 (10^12) 0).fitOne 0 1 5).1
      = ((mkFunkMF sampleOnes 2 none (some (fun _ _ => none)) 0 (10^12) 0).predictOne 0 1).2 :=
  ⟨rfl, funkMF_fit_error_state _ 0 1 5 rfl⟩

/-- C2, counterexample: with a loss whose gradient fails and a previously
unseen user key, the failing `fit_one` has already inserted a fresh vector
into the user store, so state was mutated despite the error being signalled. -/
theorem funkMF_fit_error_cex :
    ((mkFunkMF sampleOnes 2 none (some (fun _ _ => none)) 0 (10^12) 0).fitOne 0 1 5).2 = false
    ∧ ((mkFunkMF sampleOnes 2 none (some (fun _ _ => none)) 0 (10^12) 0).fitOne 0 1 5).1.u_latents
      ≠ (mkFunkMF sampleOnes 2 none (some (fun _ _ => none)) 0 (10^12) 0).u_latents := by
  constructor
  · rfl
  · decide

/-- C8: lazy initialization is deterministic under a fixed seed: two fresh
models sharing the initializer configuration (`sample`, seed, `n_factors`) —
in particular two fresh models with fully identical configuration — assign
identical initial latent vectors and return the identical prediction on the
first access to any key pair, whatever their optimizer, loss, l2 and clip
settings are. -/
theorem funkMF_init_determinism (sample : Nat → Nat → Nat → ℚ) (n : Nat)
    (opt1 opt2 : Option Optimizer) (loss1 loss2 : Option (ℚ → ℚ → Option ℚ))
    (l2a l2b ca cb : ℚ) (seed u i : Nat) :
    ((mkFunkMF sample n opt1 loss1 l2a ca seed).predictOne u i).2.u_latents
      = ((mkFunkMF sample n opt2 loss2 l2b cb seed).predictOne u i).2.u_latents
    ∧ ((mkFunkMF sample n opt1 loss1 l2a ca seed).predictOne u i).2.i_latents
      = ((mkFunkMF sample n opt2 loss2 l2b cb seed).predictOne u i).2.i_latents
    ∧ ((mkFunkMF sample n opt1 loss1 l2a ca seed).predictOne u i).1
      = ((mkFunkMF sample n opt2 loss2 l2b cb seed).predictOne u i).1 :=
  ⟨rfl, rfl, rfl⟩

/-- C10: both stores draw from one shared initializer stream, so the initial
vector a key receives depends on the interleaved order of first accesses
across the two stores: the two runs below have identical per-store
first-access sequences (users [1, 2]; items [10, 20]) yet assign different
initial vectors to user key 2. -/
theorem funkMF_shared_initializer_interleaving :
    (runOps (mkFunkMF sampleIdx 1 none none 0 (10^12) 0)
        [Op.pred 1 10, Op.pred 2 20]).u_latents.map Prod.fst
      = (runOps (mkFunkMF sampleIdx 1 none none 0 (10^12) 0)
        [Op.pred 1 10, Op.pred 1 20, Op.pred 2 20]).u_latents.map Prod.fst
    ∧ (runOps (mkFunkMF sampleIdx 1 none none 0 (10^12) 0)
        [Op.pred 1 10, Op.pred 2 20]).i_latents.map Prod.fst
      = (runOps (mkFunkMF sampleIdx 1 none none 0 (10^12) 0)
        [Op.pred 1 10, Op.pred 1 20, Op.pred 2 20]).i_latents.map Prod.fst
    ∧ lookupStore (runOps (mkFunkMF sampleIdx 1 none none 0 (10^12) 0)
        [Op.pred 1 10, Op.pred 2 20]).u_latents 2
      ≠ lookupStore (runOps (mkFunkMF sampleIdx 1 none none 0 (10^12) 0)
        [Op.pred 1 10, Op.pred 1 20, Op.pred 2 20]).u_latents 2 := by
  refine ⟨rfl, rfl, ?_⟩
  decide

theorem clamp_big (x c : ℚ) (hc : 0 ≤ c) (h : c ≤ x) : clamp x (-c) c = c := by
  rw [clamp, min_eq_right h, max_eq_left (neg_le_self hc)]

theorem clamp_small (x c : ℚ) (hc : 0 ≤ c) (h : x ≤ -c) : clamp x (-c) c = -c := by
  have hx : x ≤ c := le_trans h (le_trans (neg_nonpos.mpr hc) hc)
  rw [clamp, min_eq_left hx, max_eq_right h]

theorem fitOne_loss_congr (m : FunkMF) (f : ℚ → ℚ → Option ℚ) (u i : Nat) (y : ℚ)
    (h : (f y (m.predictOne u i).1).map
          (fun gr => clamp gr (-(m.clip_gradient)) m.clip_gradient)
        = (m.lossGradient y (m.predictOne u i).1).map
          (fun gr => clamp gr (-(m.clip_gradient)) m.clip_gradient)) :
    (({ m with lossGradient := f }).fitOne u i y).1.u_latents
      = (m.fitOne u i y).1.u_latents
    ∧ (({ m with lossGradient := f }).fitOne u i y).1.i_latents
      = (m.fitOne u i y).1.i_latents
    ∧ (({ m with lossGradient := f }).fitOne u i y).2 = (m.fitOne u i y).2 := by
  have hp : ({ m with lossGradient := f } : FunkMF).predictOne u i
      = ((m.predictOne u i).1, { (m.predictOne u i).2 with lossGradient := f }) := rfl
  simp only [FunkMF.fitOne, hp]
  rw [h]
  cases hs : (m.lossGradient y (m.predictOne u i).1).map
      (fun gr => clamp gr (-(m.clip_gradient)) m.clip_gradient) with
  | none => exact ⟨rfl, rfl, rfl⟩
  | some g => exact ⟨rfl, rfl, rfl⟩

/-- C4: `predict(u, i)` returns exactly the dot product of the stored (or
lazily initialized) user vector for `u` and item vector for `i`; its only
store effect is that a key absent from a store is created by the initializer
and inserted — this happens on the read access itself, even when no fit
follows — while every other key, and every already-present key, keeps its
exact stored vector. -/
theorem funkMF_predict_spec (m : FunkMF) (u i : Nat) :
    (m.predictOne u i).1
      = dot ((lookupStore m.u_latents u).getD (m.freshVec m.rng_k))
            ((lookupStore m.i_latents i).getD
              (m.freshVec (if (lookupStore m.u_latents u).isSome then m.rng_k
                           else m.rng_k + 1)))
    ∧ (∀ k, lookupStore (m.predictOne u i).2.u_latents k
        = if k = u then some ((lookupStore m.u_latents u).getD (m.freshVec m.rng_k))
          else lookupStore m.u_latents k)
    ∧ (∀ k, lookupStore (m.predictOne u i).2.i_latents k
        = if k = i then some ((lookupStore m.i_latents i).getD
              (m.freshVec (if (lookupStore m.u_latents u).isSome then m.rng_k
                           else m.rng_k + 1)))
          else lookupStore m.i_latents k) :=
  ⟨predictOne_value m u i, fun k => predictOne_lookup_u m u i k,
    fun k => predictOne_lookup_i m u i k⟩

/-- C3: one `fit_one` computes both latent gradients from the same pre-update
snapshot: with the pre-update (post-lazy-init) vectors `uv`, `iv` and the
clipped loss gradient `g`, the user entry becomes the user optimizer's step
on `uv` with gradient `g * iv + l2 * uv`, and the item entry becomes the item
optimizer's step on `iv` with gradient `g * uv + l2 * iv`; so each new vector
is computed purely from the old vectors. -/
theorem funkMF_gradient_snapshot (m : FunkMF) (u i : Nat) (y : ℚ)
    (uv iv : Vec) (g0 : ℚ)
    (hu : lookupStore (m.predictOne u i).2.u_latents u = some uv)
    (hi : lookupStore (m.predictOne u i).2.i_latents i = some iv)
    (hg : m.lossGradient y (m.predictOne u i).1 = some g0) :
    lookupStore (m.fitOne u i y).1.u_latents u
      = some (m.u_optimizer.step uv
          (vadd (smul (clamp g0 (-(m.clip_gradient)) m.clip_gradient) iv)
                (smul m.l2 uv)))
    ∧ lookupStore (m.fitOne u i y).1.i_latents i
      = some (m.i_optimizer.step iv
          (vadd (smul (clamp g0 (-(m.clip_gradient)) m.clip_gradient) uv)
                (smul m.l2 iv))) := by
  have hu' : lookupStore (m.predictOne u i).2.u_latents u ≠ none := by simp [hu]
  have hi' : lookupStore (m.predictOne u i).2.i_latents i ≠ none := by simp [hi]
  constructor <;>
    simp [FunkMF.fitOne, hg, Optimizer.update_after_pred, FunkMF.latentGrads,
          lookupStore_update_self _ _ _ hu', lookupStore_update_self _ _ _ hi', hu, hi]

/-- Witness for C3 at a concrete model and observation. -/
theorem funkMF_gradient_snapshot_witness :
    lookupStore ((mkFunkMF sampleIdx 2 none (some (fun _ _ => some (-6))) (1/2)
        (10^12) 0).fitOne 0 1 3).1.u_latents 0
      = some ((mkFunkMF sampleIdx 2 none (some (fun _ _ => some (-6))) (1/2)
            (10^12) 0).u_optimizer.step
          ([0, 0])
          (vadd (smul (clamp (-6)
                  (-((mkFunkMF sampleIdx 2 none (some (fun _ _ => some (-6))) (1/2)
                      (10^12) 0).clip_gradient))
                  (mkFunkMF sampleIdx 2 none (some (fun _ _ => some (-6))) (1/2)
                    (10^12) 0).clip_gradient) [1, 1])
                (smul (mkFunkMF sampleIdx 2 none (some (fun _ _ => some (-6))) (1/2)
                    (10^12) 0).l2 [0, 0]))) :=
  (funkMF_gradient_snapshot (mkFunkMF sampleIdx 2 none (some (fun _ _ => some (-6))) (1/2)
      (10^12) 0) 0 1 3
    [0, 0] [1, 1] (-6) (by decide) (by decide) rfl).1

/-- C5: with a positive clip bound `c`, whenever the raw loss gradient's
magnitude exceeds `c`, the state `fit_one` produces is identical to the one
produced with the raw gradient replaced by the saturated value `+c` or `-c`. -/
theorem funkMF_clip_spec (m : FunkMF) (u i : Nat) (y : ℚ) (g0 : ℚ)
    (hc : 0 < m.clip_gradient)
    (hg : m.lossGradient y (m.predictOne u i).1 = some g0)
    (hbig : m.clip_gradient < |g0|) :
    (({ m with lossGradient := saturatedLoss m.clip_gradient g0 }).fitOne
        u i y).1.u_latents
      = (m.fitOne u i y).1.u_latents
    ∧ (({ m with lossGradient := saturatedLoss m.clip_gradient g0 }).fitOne
        u i y).1.i_latents
      = (m.fitOne u i y).1.i_latents
    ∧ (({ m with lossGradient := saturatedLoss m.clip_gradient g0 }).fitOne
        u i y).2
      = (m.fitOne u i y).2 := by
  apply fitOne_loss_congr
  rw [hg]
  simp only [saturatedLoss, Option.map_some']
  congr 1
  by_cases hpos : 0 < g0
  · have hge : m.clip_gradient ≤ g0 := by
      rw [abs_of_pos hpos] at hbig
      exact le_of_lt hbig
    rw [if_pos hpos, clamp_big _ _ hc.le le_rfl, clamp_big _ _ hc.le hge]
  · have hle : g0 ≤ -(m.clip_gradient) := by
      push_neg at hpos
      rw [abs_of_nonpos hpos] at hbig
      linarith
    rw [if_neg hpos, clamp_small _ _ hc.le le_rfl, clamp_small _ _ hc.le hle]

/-- Witness for C5 at a concrete model whose raw gradient 5 exceeds clip 1. -/
theorem funkMF_clip_spec_witness :
    (0:ℚ) < (mkFunkMF sampleOnes 1 none (some (fun _ _ => some 5)) 0 1 0).clip_gradient
    ∧ (({ mkFunkMF sampleOnes 1 none (some (fun _ _ => some 5)) 0 1 0 with
          lossGradient := saturatedLoss
            (mkFunkMF sampleOnes 1 none (some (fun _ _ => some 5)) 0 1 0).clip_gradient
            5 }).fitOne 2 3 0).1.u_latents
      = ((mkFunkMF sampleOnes 1 none (some (fun _ _ => some 5)) 0 1 0).fitOne 2 3 0).1.u_latents :=
  ⟨by decide,
    (funkMF_clip_spec (mkFunkMF sampleOnes 1 none (some (fun _ _ => some 5)) 0 1 0)
      2 3 0 5 (by decide) rfl (by decide)).1⟩

/-- C7: for every interleaved sequence of predict and fit operations on a
fresh default-optimizer model, the user store's keys are exactly the
referenced user keys in first-access order, without duplicates — so after N
distinct user keys have been referenced the store holds exactly N entries and
no entry is ever removed — and every stored vector has exactly `n_factors`
entries; symmetrically for the item store. -/
theorem funkMF_store_growth (sample : Nat → Nat → Nat → ℚ) (n : Nat)
    (loss : Option (ℚ → ℚ → Option ℚ)) (l2 c : ℚ) (seed : Nat) (ops : List Op) :
    (runOps (mkFunkMF sample n none loss l2 c seed) ops).u_latents.map Prod.fst
      = firstSeen (ops.map opUser)
    ∧ (runOps (mkFunkMF sample n none loss l2 c seed) ops).i_latents.map Prod.fst
      = firstSeen (ops.map opItem)
    ∧ ((runOps (mkFunkMF sample n none loss l2 c seed) ops).u_latents.map Prod.fst).Nodup
    ∧ ((runOps (mkFunkMF sample n none loss l2 c seed) ops).i_latents.map Prod.fst).Nodup
    ∧ (runOps (mkFunkMF sample n none loss l2 c seed) ops).u_latents.length
      = (ops.map opUser).toFinset.card
    ∧ (runOps (mkFunkMF sample n none loss l2 c seed) ops).i_latents.length
      = (ops.map opItem).toFinset.card
    ∧ ((runOps (mkFunkMF sample n none loss l2 c seed) ops).u_latents.all
        fun kv => kv.2.length == n) = true
    ∧ ((runOps (mkFunkMF sample n none loss l2 c seed) ops).i_latents.all
        fun kv => kv.2.length == n) = true := by
  have hk := runOps_keys ops (mkFunkMF sample n none loss l2 c seed)
  have hku : (runOps (mkFunkMF sample n none loss l2 c seed) ops).u_latents.map Prod.fst
      = firstSeen (ops.map opUser) := hk.1
  have hki : (runOps (mkFunkMF sample n none loss l2 c seed) ops).i_latents.map Prod.fst
      = firstSeen (ops.map opItem) := hk.2
  have hinv := inv_runOps n ops _ (inv_mkFunkMF sample n loss l2 c seed)
  obtain ⟨h1, h2, h3, h4, h5⟩ := hinv
  refine ⟨hku, hki, ?_, ?_, ?_, ?_, ?_, ?_⟩
  · rw [hku]
    exact firstSeen_nodup _
  · rw [hki]
    exact firstSeen_nodup _
  · rw [← firstSeen_length, ← hku, List.length_map]
  · rw [← firstSeen_length, ← hki, List.length_map]
  · rw [List.all_eq_true]
    intro kv hkv
    exact beq_iff_eq.mpr (h4 kv hkv)
  · rw [List.all_eq_true]
    intro kv hkv
    exact beq_iff_eq.mpr (h5 kv hkv)

/-- C9: with `n_factors = 0` every operation degenerates without error: after
any operation sequence on a fresh model, `predict` returns 0 (the dot product
of empty vectors) for every pair, and the two per-vector gradients `fit_one`
computes from the post-prediction vectors are both the empty vector. -/
theorem funkMF_zero_factors (sample : Nat → Nat → Nat → ℚ)
    (loss : Option (ℚ → ℚ → Option ℚ)) (l2 c : ℚ) (seed : Nat) (ops : List Op)
    (u i : Nat) (g : ℚ) :
    ((runOps (mkFunkMF sample 0 none loss l2 c seed) ops).predictOne u i).1 = 0
    ∧ (runOps (mkFunkMF sample 0 none loss l2 c seed) ops).latentGrads g
        ((lookupStore ((runOps (mkFunkMF sample 0 none loss l2 c seed) ops).predictOne
            u i).2.u_latents u).getD [])
        ((lookupStore ((runOps (mkFunkMF sample 0 none loss l2 c seed) ops).predictOne
            u i).2.i_latents i).getD [])
      = ([], []) := by
  have hinv := inv_runOps 0 ops _ (inv_mkFunkMF sample 0 loss l2 c seed)
  have hpinv := inv_predictOne 0 _ hinv u i
  obtain ⟨h1, h2, h3, h4, h5⟩ := hinv
  obtain ⟨g1, g2, g3, g4, g5⟩ := hpinv
  constructor
  · have hA : ((lookupStore (runOps (mkFunkMF sample 0 none loss l2 c seed) ops).u_latents
        u).getD ((runOps (mkFunkMF sample 0 none loss l2 c seed) ops).freshVec
          (runOps (mkFunkMF sample 0 none loss l2 c seed) ops).rng_k)) = [] := by
      refine List.length_eq_zero.mp ?_
      refine getD_lookup_length 0 _ _ _ h4 ?_
      rw [freshVec_length, h1]
    rw [predictOne_value, hA]
    rfl
  · have hA : ((lookupStore ((runOps (mkFunkMF sample 0 none loss l2 c seed) ops).predictOne
        u i).2.u_latents u).getD ([] : Vec)) = [] := by
      refine List.length_eq_zero.mp ?_
      exact getD_lookup_length 0 _ _ _ g4 rfl
    have hB : ((lookupStore ((runOps (mkFunkMF sample 0 none loss l2 c seed) ops).predictOne
        u i).2.i_latents i).getD ([] : Vec)) = [] := by
      refine List.length_eq_zero.mp ?_
      exact getD_lookup_length 0 _ _ _ g5 rfl
    rw [hA, hB]
    rfl

theorem smul_one_vec (v : Vec) : smul 1 v = v := by
  simp [smul]

theorem smul_smul_vec (a b : ℚ) (v : Vec) : smul a (smul b v) = smul (a * b) v := by
  simp [smul, Function.comp, mul_assoc]

theorem smul_length (c : ℚ) (v : Vec) : (smul c v).length = v.length := by
  simp [smul]

theorem normSq_smul (c : ℚ) (v : Vec) : normSq (smul c v) = c^2 * normSq v := by
  induction v with
  | nil => simp [normSq, smul]
  | cons a tl ih =>
      simp only [smul, List.map_cons, normSq, List.sum_cons] at ih ⊢
      rw [ih]
      ring

theorem normSq_nonneg (v : Vec) : 0 ≤ normSq v := by
  induction v with
  | nil => simp [normSq]
  | cons a tl ih =>
      simp only [normSq, List.map_cons, List.sum_cons]
      simp only [normSq] at ih
      have := mul_self_nonneg a
      linarith

theorem clamp_zero (c : ℚ) (hc : 0 ≤ c) : clamp 0 (-c) c = 0 := by
  rw [clamp, min_eq_left hc, max_eq_left (neg_nonpos.mpr hc)]

theorem decay_step (lr l2 : ℚ) : ∀ (uv iv : Vec), uv.length = iv.length →
    vsub uv (smul lr (vadd (smul 0 iv) (smul l2 uv))) = smul (1 - lr * l2) uv := by
  intro uv
  induction uv with
  | nil => intro iv h; simp [vsub, smul, vadd]
  | cons a tl ih =>
      intro iv h
      cases iv with
      | nil => simp at h
      | cons b tl2 =>
          have h2 : tl.length = tl2.length := by simpa using h
          simp only [vsub, smul, vadd, List.map_cons, List.zipWith_cons_cons, List.cons.injEq]
          constructor
          · ring
          · simpa [vsub, smul, vadd] using ih tl2 h2

theorem predictOne_present (m : FunkMF) (u i : Nat) (uv iv : Vec)
    (hu : lookupStore m.u_latents u = some uv)
    (hi : lookupStore m.i_latents i = some iv) :
    m.predictOne u i = (dot uv iv, m) := by
  simp [FunkMF.predictOne, FunkMF.getOrInit, hu, hi]

theorem selfFit_eq (m : FunkMF) (u i : Nat) (uv iv : Vec) (a b : Nat) (lr : ℚ)
    (hou : m.u_optimizer = SGD a lr) (hoi : m.i_optimizer = SGD b lr)
    (hloss : m.lossGradient = squaredLossGradient)
    (hclip : 0 ≤ m.clip_gradient)
    (hu : lookupStore m.u_latents u = some uv)
    (hi : lookupStore m.i_latents i = some iv)
    (hlen : uv.length = iv.length) :
    selfFit m u i
      = { m with
          u_latents := updateStore m.u_latents u (smul (1 - lr * m.l2) uv),
          i_latents := updateStore m.i_latents i (smul (1 - lr * m.l2) iv) } := by
  have hp := predictOne_present m u i uv iv hu hi
  have hsc : (m.lossGradient ((m.predictOne u i).1) ((m.predictOne u i).1)).map
      (fun gr => clamp gr (-(m.clip_gradient)) m.clip_gradient) = some 0 := by
    rw [hloss]
    simp [squaredLossGradient, clamp_zero _ hclip]
  simp only [selfFit, FunkMF.fitOne, hsc]
  simp only [hp, Optimizer.update_after_pred, List.foldl_cons, List.foldl_nil,
    FunkMF.latentGrads, hou, hoi, SGD, hu, hi, Option.getD_some]
  rw [decay_step lr m.l2 uv iv hlen, decay_step lr m.l2 iv uv hlen.symm]

theorem selfFitIter_spec (u i a b : Nat) (lr : ℚ) :
    ∀ (k : Nat) (m : FunkMF) (uv iv : Vec),
    m.u_optimizer = SGD a lr → m.i_optimizer = SGD b lr →
    m.lossGradient = squaredLossGradient → 0 ≤ m.clip_gradient →
    lookupStore m.u_latents u = some uv →
    lookupStore m.i_latents i = some iv →
    uv.length = iv.length →
    lookupStore (selfFitIter m u i k).u_latents u
      = some (smul ((1 - lr * m.l2)^k) uv)
    ∧ lookupStore (selfFitIter m u i k).i_latents i
      = some (smul ((1 - lr * m.l2)^k) iv)
    ∧ (selfFitIter m u i k).u_optimizer = SGD a lr
    ∧ (selfFitIter m u i k).i_optimizer = SGD b lr
    ∧ (selfFitIter m u i k).lossGradient = squaredLossGradient
    ∧ (selfFitIter m u i k).clip_gradient = m.clip_gradient
    ∧ (selfFitIter m u i k).l2 = m.l2 := by
  intro k
  induction k with
  | zero =>
      intro m uv iv h1 h2 h3 h4 h5 h6 h7
      refine ⟨?_, ?_, h1, h2, h3, rfl, rfl⟩
      · rw [pow_zero, smul_one_vec]
        exact h5
      · rw [pow_zero, smul_one_vec]
        exact h6
  | succ k ih =>
      intro m uv iv h1 h2 h3 h4 h5 h6 h7
      obtain ⟨l1, l2', o1, o2, ol, oc, oll⟩ := ih m uv iv h1 h2 h3 h4 h5 h6 h7
      have hlen2 : (smul ((1 - lr * m.l2)^k) uv).length
          = (smul ((1 - lr * m.l2)^k) iv).length := by
        rw [smul_length, smul_length, h7]
      have hclip2 : 0 ≤ (selfFitIter m u i k).clip_gradient := by
        rw [oc]
        exact h4
      have hEq := selfFit_eq (selfFitIter m u i k) u i
        (smul ((1 - lr * m.l2)^k) uv) (smul ((1 - lr * m.l2)^k) iv) a b lr
        o1 o2 ol hclip2 l1 l2' hlen2
      have hne_u : lookupStore (selfFitIter m u i k).u_latents u ≠ none := by
        rw [l1]
        exact Option.some_ne_none _
      have hne_i : lookupStore (selfFitIter m u i k).i_latents i ≠ none := by
        rw [l2']
        exact Option.some_ne_none _
      have hstep : selfFitIter m u i (k + 1) = selfFit (selfFitIter m u i k) u i := rfl
      rw [hstep, hEq]
      refine ⟨?_, ?_, o1, o2, ol, oc, oll⟩
      · show lookupStore (updateStore (selfFitIter m u i k).u_latents u
            (smul (1 - lr * (selfFitIter m u i k).l2) (smul ((1 - lr * m.l2)^k) uv))) u
          = some (smul ((1 - lr * m.l2)^(k+1)) uv)
        rw [lookupStore_update_self _ _ _ hne_u, oll, smul_smul_vec, ← pow_succ']
      · show lookupStore (updateStore (selfFitIter m u i k).i_latents i
            (smul (1 - lr * (selfFitIter m u i k).l2) (smul ((1 - lr * m.l2)^k) iv))) i
          = some (smul ((1 - lr * m.l2)^(k+1)) iv)
        rw [lookupStore_update_self _ _ _ hne_i, oll, smul_smul_vec, ← pow_succ']

/-- C6, counterexample: the claim fails for large `l2`: with `l2 = 200 > 0`
and the default SGD learning rate, `1 - lr*l2 = -1`, so a fit whose target is
the current prediction flips the latent vector's sign and leaves its squared
norm unchanged — the norms do not strictly shrink for every positive `l2`. -/
theorem funkMF_decay_cex :
    (0:ℚ) < 200
    ∧ normSq ((lookupStore (selfFit ((mkFunkMF sampleOnes 1 none none 200 (10^12)
          0).predictOne 0 0).2 0 0).u_latents 0).getD [])
      = normSq ((lookupStore ((mkFunkMF sampleOnes 1 none none 200 (10^12)
          0).predictOne 0 0).2.u_latents 0).getD [])
    ∧ normSq ((lookupStore ((mkFunkMF sampleOnes 1 none none 200 (10^12)
          0).predictOne 0 0).2.u_latents 0).getD []) = 1 := by
  have hu : lookupStore ((mkFunkMF sampleOnes 1 none none 200 (10^12)
      0).predictOne 0 0).2.u_latents 0 = some [1] := rfl
  have hi : lookupStore ((mkFunkMF sampleOnes 1 none none 200 (10^12)
      0).predictOne 0 0).2.i_latents 0 = some [1] := rfl
  have hclip : (0:ℚ) ≤ ((mkFunkMF sampleOnes 1 none none 200 (10^12)
      0).predictOne 0 0).2.clip_gradient := by
    show (0:ℚ) ≤ 10^12
    norm_num
  have hEq := selfFit_eq ((mkFunkMF sampleOnes 1 none none 200 (10^12) 0).predictOne 0 0).2
      0 0 [1] [1] 0 1 sgdDefaultLR rfl rfl rfl hclip hu hi rfl
  have hne : lookupStore ((mkFunkMF sampleOnes 1 none none 200 (10^12)
      0).predictOne 0 0).2.u_latents 0 ≠ none := by
    rw [hu]
    exact Option.some_ne_none _
  refine ⟨by norm_num, ?_, ?_⟩
  · rw [hEq]
    show normSq ((lookupStore (updateStore ((mkFunkMF sampleOnes 1 none none 200 (10^12)
          0).predictOne 0 0).2.u_latents 0
        (smul (1 - sgdDefaultLR * 200) [1])) 0).getD [])
      = normSq ((lookupStore ((mkFunkMF sampleOnes 1 none none 200 (10^12)
          0).predictOne 0 0).2.u_latents 0).getD [])
    rw [lookupStore_update_self _ _ _ hne, hu]
    show normSq (smul (1 - sgdDefaultLR * 200) [1]) = normSq [1]
    rw [normSq_smul]
    norm_num [sgdDefaultLR, normSq]
  · rw [hu]
    norm_num [normSq]

/-- C6 (amended): with strictly positive `l2`, the default SGD optimizer and
squared loss, and `l2` small enough that `lr * l2 < 1` for the default
learning rate `lr`, repeated fits of a pair with target equal to the current
prediction scale both latent vectors by the factor `γ = 1 - lr*l2 ∈ (0, 1)`
per step: after `k` steps the stored vectors are `γ^k` times the initial
ones, and whenever an initial vector is nonzero, its squared norm strictly
decreases at every step, decaying geometrically toward zero. -/
theorem funkMF_decay_amended (sample : Nat → Nat → Nat → ℚ) (n : Nat)
    (l2 : ℚ) (seed u i : Nat) (k : Nat)
    (hl2 : 0 < l2) (hsmall : sgdDefaultLR * l2 < 1) :
    lookupStore (selfFitIter ((mkFunkMF sample n none none l2 (10^12) seed).predictOne u i).2
        u i k).u_latents u
      = some (smul ((1 - sgdDefaultLR * l2)^k)
          ((mkFunkMF sample n none none l2 (10^12) seed).freshVec 0))
    ∧ lookupStore (selfFitIter ((mkFunkMF sample n none none l2 (10^12) seed).predictOne u i).2
        u i k).i_latents i
      = some (smul ((1 - sgdDefaultLR * l2)^k)
          ((mkFunkMF sample n none none l2 (10^12) seed).freshVec 1))
    ∧ (normSq ((mkFunkMF sample n none none l2 (10^12) seed).freshVec 0) ≠ 0 →
        normSq ((lookupStore (selfFitIter ((mkFunkMF sample n none none l2 (10^12)
            seed).predictOne u i).2 u i (k+1)).u_latents u).getD [])
          < normSq ((lookupStore (selfFitIter ((mkFunkMF sample n none none l2 (10^12)
            seed).predictOne u i).2 u i k).u_latents u).getD []))
    ∧ (normSq ((mkFunkMF sample n none none l2 (10^12) seed).freshVec 1) ≠ 0 →
        normSq ((lookupStore (selfFitIter ((mkFunkMF sample n none none l2 (10^12)
            seed).predictOne u i).2 u i (k+1)).i_latents i).getD [])
          < normSq ((lookupStore (selfFitIter ((mkFunkMF sample n none none l2 (10^12)
            seed).predictOne u i).2 u i k).i_latents i).getD [])) := by
  have hu0 : lookupStore ((mkFunkMF sample n none none l2 (10^12) seed).predictOne
      u i).2.u_latents u
      = some ((mkFunkMF sample n none none l2 (10^12) seed).freshVec 0) :=
    predictOne_lookup_self_u (mkFunkMF sample n none none l2 (10^12) seed) u i
  have hi0 : lookupStore ((mkFunkMF sample n none none l2 (10^12) seed).predictOne
      u i).2.i_latents i
      = some ((mkFunkMF sample n none none l2 (10^12) seed).freshVec 1) :=
    predictOne_lookup_self_i (mkFunkMF sample n none none l2 (10^12) seed) u i
  have hclip : (0:ℚ) ≤ ((mkFunkMF sample n none none l2 (10^12) seed).predictOne
      u i).2.clip_gradient := by
    show (0:ℚ) ≤ 10^12
    norm_num
  have hlen : ((mkFunkMF sample n none none l2 (10^12) seed).freshVec 0).length
      = ((mkFunkMF sample n none none l2 (10^12) seed).freshVec 1).length := by
    rw [freshVec_length, freshVec_length]
  have hspec := fun j => selfFitIter_spec u i 0 1 sgdDefaultLR j
    ((mkFunkMF sample n none none l2 (10^12) seed).predictOne u i).2
    ((mkFunkMF sample n none none l2 (10^12) seed).freshVec 0)
    ((mkFunkMF sample n none none l2 (10^12) seed).freshVec 1)
    rfl rfl rfl hclip hu0 hi0 hlen
  have hg0 : 0 < 1 - sgdDefaultLR * l2 := by linarith
  have hg1 : 1 - sgdDefaultLR * l2 < 1 := by
    have hlr : 0 < sgdDefaultLR := by norm_num [sgdDefaultLR]
    nlinarith
  have hpow : (1 - sgdDefaultLR * l2)^(k+1) < (1 - sgdDefaultLR * l2)^k := by
    have hk := pow_pos hg0 k
    calc (1 - sgdDefaultLR * l2)^(k+1)
        = (1 - sgdDefaultLR * l2)^k * (1 - sgdDefaultLR * l2) := pow_succ _ _
      _ < (1 - sgdDefaultLR * l2)^k * 1 := by
          exact mul_lt_mul_of_pos_left hg1 hk
      _ = (1 - sgdDefaultLR * l2)^k := mul_one _
  have hpow2 : ((1 - sgdDefaultLR * l2)^(k+1))^2 < ((1 - sgdDefaultLR * l2)^k)^2 :=
    pow_lt_pow_left₀ hpow (pow_pos hg0 (k+1)).le (by norm_num)
  refine ⟨(hspec k).1, (hspec k).2.1, ?_, ?_⟩
  · intro hne
    have hN : 0 < normSq ((mkFunkMF sample n none none l2 (10^12) seed).freshVec 0) :=
      lt_of_le_of_ne (normSq_nonneg _) (Ne.symm hne)
    rw [(hspec (k+1)).1, (hspec k).1]
    simp only [Option.getD_some]
    rw [normSq_smul, normSq_smul]
    exact mul_lt_mul_of_pos_right hpow2 hN
  · intro hne
    have hN : 0 < normSq ((mkFunkMF sample n none none l2 (10^12) seed).freshVec 1) :=
      lt_of_le_of_ne (normSq_nonneg _) (Ne.symm hne)
    rw [(hspec (k+1)).2.1, (hspec k).2.1]
    simp only [Option.getD_some]
    rw [normSq_smul, normSq_smul]
    exact mul_lt_mul_of_pos_right hpow2 hN

/-- Witness for the amended C6 at a concrete model (`l2 = 1`, one factor). -/
theorem funkMF_decay_amended_witness :
    (0:ℚ) < 1
    ∧ sgdDefaultLR * 1 < 1
    ∧ normSq ((lookupStore (selfFitIter ((mkFunkMF sampleOnes 1 none none 1 (10^12)
          0).predictOne 0 0).2 0 0 (0+1)).u_latents 0).getD [])
      < normSq ((lookupStore (selfFitIter ((mkFunkMF sampleOnes 1 none none 1 (10^12)
          0).predictOne 0 0).2 0 0 0).u_latents 0).getD []) :=
  ⟨by norm_num, by norm_num [sgdDefaultLR],
    (funkMF_decay_amended sampleOnes 1 1 0 0 0 0 (by norm_num)
        (by norm_num [sgdDefaultLR])).2.2.1
      (by norm_num [FunkMF.freshVec, mkFunkMF, sampleOnes, normSq, show List.range 1 = [0] from rfl, Function.comp])⟩
